import Mathlib

/- Verification of the retrieval-augmented support chatbot pipeline
   (document chunking, vector retrieval, prompt assembly, per-session
   conversation history, ticket classification helpers).

   Text is represented as a list of characters so that containment and
   splitting arguments can be carried out with the list API.  External
   collaborators (embedding provider, chat model, filesystem, document
   loaders) are parameters of the functions that call them, so the same
   definitions cover both the success and the failure behaviour of a
   provider. -/

abbrev Str := List Char

/-- Provider and loader errors are carried as plain message text. -/
abbrev Err := Str

/-- A chat message: role paired with content, as used by the prompt and by
the per-session histories. -/
abbrev Msg := Str × Str

def lowerStr (s : Str) : Str := s.map Char.toLower

def isPyWhitespace (c : Char) : Bool :=
  c == ' ' || c == '\n' || c == '\t' || c == '\r'

/-- Model of the Python str.strip method: drop whitespace on both ends. -/
def trimStr (s : Str) : Str :=
  ((s.dropWhile isPyWhitespace).reverse.dropWhile isPyWhitespace).reverse

/-- Model of the Python str.join method: concatenate with a separator
between consecutive elements. -/
def joinSep (sep : Str) : List Str → Str
  | [] => []
  | [x] => x
  | x :: y :: rest => x ++ sep ++ joinSep sep (y :: rest)

/-- Final path component, as in pathlib Path.name. -/
def baseName (p : Str) : Str :=
  (p.reverse.takeWhile (fun c => !(c == '/'))).reverse

/-- File extension with the leading dot, as in pathlib Path.suffix. -/
def suffixOf (p : Str) : Str :=
  let b := baseName p
  let r := b.reverse.takeWhile (fun c => !(c == '.'))
  if r.length = b.length then [] else '.' :: r.reverse

namespace config

/- Constants from src/config.py. -/

def CHUNK_SIZE : Nat := 800

def CHUNK_OVERLAP : Nat := 120

def INDEX_PATH : Str := "./faiss_index".toList

end config

/-- A loaded document: source path, optional page, raw text
(src/document_processor.py, load_documents). -/
structure Document where
  source : Str
  page : Option Nat
  content : Str
deriving DecidableEq

/-- A chunk produced by the splitter: a contiguous piece of a document
tagged with the document metadata. -/
structure Chunk where
  source : Str
  page : Option Nat
  content : Str
deriving DecidableEq

/- ------------------------------------------------------------------
   Chunker.
   ------------------------------------------------------------------ -/

/-- Modelled from the spec: the text splitter used by split_documents
(RecursiveCharacterTextSplitter from the langchain library, whose code is
not part of this repository) is described by the spec as a sliding-window
split: windows of chunkSize characters advancing by
chunkSize - chunkOverlap, the last window holding whatever remains.
The fuel argument makes the recursion structural; it is initialised to
the text length, which bounds the number of emitted windows. -/
def slidingChunksFuel (fuel chunkSize chunkOverlap : Nat) (s : Str) : List Str :=
  match fuel with
  | 0 => [s]
  | fuel' + 1 =>
    if s.length ≤ chunkSize ∨ chunkSize ≤ chunkOverlap then [s]
    else s.take chunkSize ::
      slidingChunksFuel fuel' chunkSize chunkOverlap (s.drop (chunkSize - chunkOverlap))

/-- Modelled from the spec: sliding-window chunking of one text. -/
def slidingChunks (chunkSize chunkOverlap : Nat) (s : Str) : List Str :=
  slidingChunksFuel s.length chunkSize chunkOverlap s

/-- Split one document, tagging every window with the document metadata. -/
def splitDocument (chunkSize chunkOverlap : Nat) (d : Document) : List Chunk :=
  (slidingChunks chunkSize chunkOverlap d.content).map
    (fun c => { source := d.source, page := d.page, content := c })

/-- split_documents from src/document_processor.py: split every document
with the configured chunk size and overlap. -/
def split_documents (docs : List Document) : List Chunk :=
  docs.flatMap (splitDocument config.CHUNK_SIZE config.CHUNK_OVERLAP)

/-- The chunk count the claim states: ceil((L - O) / (C - O)), written with
natural-number truncated subtraction (which agrees with the integer
ceiling for every L here because O < C). -/
def claimedChunkCount (chunkSize chunkOverlap L : Nat) : Nat :=
  (L - chunkOverlap + (chunkSize - chunkOverlap) - 1) / (chunkSize - chunkOverlap)

/-- The corrected chunk count: the claimed ceiling, clamped below by one,
since every nonempty document yields at least one chunk. -/
def expectedChunkCount (chunkSize chunkOverlap L : Nat) : Nat :=
  max 1 (claimedChunkCount chunkSize chunkOverlap L)

/-- Exact-overlap relation between consecutive chunks of one document: each
chunk is at least ov long and the last ov characters of a chunk are the
first ov characters of its successor. -/
def consecOverlap (ov : Nat) : List Str → Prop
  | [] => True
  | [_] => True
  | a :: b :: rest =>
    ov ≤ a.length ∧ ov ≤ b.length ∧
      a.drop (a.length - ov) = b.take ov ∧ consecOverlap ov (b :: rest)

/- ------------------------------------------------------------------
   Vector store and retrieval.
   ------------------------------------------------------------------ -/

/-- Modelled from the spec: the FAISS vector index (library code, not part
of this repository) is an ordered collection of (embedding, chunk) pairs.
Embeddings are integer vectors here; the embedder itself is an oracle
parameter wherever it is called. -/
structure VectorStore where
  entries : List (List Int × Chunk)
deriving DecidableEq

/-- Squared euclidean distance between two vectors. -/
def sqDist (u v : List Int) : Int :=
  ((u.zip v).map (fun p => (p.1 - p.2) * (p.1 - p.2))).sum

/-- Comparison of (distance, insertion index) keys: nearer first, ties by
insertion order. -/
def leKey (x y : (Int × Nat) × Chunk) : Bool :=
  decide (x.1.1 < y.1.1) || ((x.1.1 == y.1.1) && decide (x.1.2 ≤ y.1.2))

def insertBy (le : α → α → Bool) (x : α) : List α → List α
  | [] => [x]
  | y :: ys => if le x y then x :: y :: ys else y :: insertBy le x ys

def sortBy (le : α → α → Bool) (l : List α) : List α :=
  l.foldr (insertBy le) []

/-- Modelled from the spec: nearest-neighbour search over the stored
pairs, k nearest by distance, ties broken by insertion order.  A pure
function of the index and the query vector. -/
def search (vs : VectorStore) (qv : List Int) (k : Nat) : List Chunk :=
  ((sortBy leKey
      (vs.entries.enum.map (fun p => ((sqDist p.2.1 qv, p.1), p.2.2)))).take k).map
    (fun r => r.2)

/-- Default number of retrieved chunks (the as_retriever default). -/
def topK : Nat := 4

/-- The retrieval step as a state transformer: it returns the retrieved
chunks together with the index state after the query, which is the
unchanged index (re-querying never mutates the index). -/
def retrieveStep (embed : Str → List Int) (vs : VectorStore) (q : Str) (k : Nat) :
    List Chunk × VectorStore :=
  (search vs (embed q) k, vs)

/- ------------------------------------------------------------------
   Session store (Chatbot.chat_histories and get_session_history).
   ------------------------------------------------------------------ -/

/-- The session store: an insertion-ordered dictionary from session id to
that session message list, as in the Python dict self.chat_histories. -/
abbrev Histories := List (Str × List Msg)

def lookupHist : Histories → Str → Option (List Msg)
  | [], _ => none
  | (k, v) :: rest, sid => if k = sid then some v else lookupHist rest sid

/-- The message list of a session, empty when the session is unknown. -/
def getTurns (hs : Histories) (sid : Str) : List Msg :=
  (lookupHist hs sid).getD []

/-- get_session_history from src/chatbot.py: create an empty history on
first access of a session id, then return the stored history.  The first
component is the store after the access, the second the history read. -/
def get_session_history (hs : Histories) (sid : Str) : Histories × List Msg :=
  match lookupHist hs sid with
  | some ts => (hs, ts)
  | none => (hs ++ [(sid, [])], [])

/-- Append turns to the history stored under a session id, leaving every
other entry unchanged. -/
def appendTurns : Histories → Str → List Msg → Histories
  | [], _, _ => []
  | (k, v) :: rest, sid, ts =>
    (if k = sid then (k, v ++ ts) else (k, v)) :: appendTurns rest sid ts

def humanRole : Str := "human".toList

def aiRole : Str := "ai".toList

def noHistoryMsg : Str := "No history found for this session.".toList

/-- get_history_as_string from src/chatbot.py. -/
def get_history_as_string (hs : Histories) (sid : Str) : Str :=
  match lookupHist hs sid with
  | none => noHistoryMsg
  | some [] => noHistoryMsg
  | some msgs =>
    joinSep "\n".toList
      (msgs.map (fun m =>
        (if m.1 = humanRole then "User: ".toList else "Assistant: ".toList) ++ m.2))

/- ------------------------------------------------------------------
   Prompt assembly (Chatbot._create_rag_chain).
   ------------------------------------------------------------------ -/

def roleSystem : Str := "system".toList

def roleUser : Str := "user".toList

def sysPre : Str := "You are a concise, careful assistant. ".toList

/-- The context-only instruction inside the system message. -/
def answerOnlyInstr : Str := "Answer ONLY from the provided context.".toList

def sysPost : Str :=
  " If the answer is not in the context, say you don\x27t know. Cite sources by filename and page if present.".toList

/-- The system message of the prompt template in _create_rag_chain. -/
def systemInstruction : Str := sysPre ++ answerOnlyInstr ++ sysPost

/-- Chunk texts joined by blank lines, the default of
create_stuff_documents_chain (modelled from the spec: that helper is
library code). -/
def joinDocs (chunks : List Chunk) : Str :=
  joinSep "\n\n".toList (chunks.map Chunk.content)

/-- Content of the human message of the prompt template, with the
question and the joined chunk texts substituted. -/
def humanContent (q : Str) (chunks : List Chunk) : Str :=
  "Question:\n".toList ++ q ++ "\n\nContext:\n".toList ++ joinDocs chunks

/-- The assembled prompt: system message, then the session history in
place of the chat_history placeholder, then the human message. -/
def buildPrompt (hist : List Msg) (q : Str) (chunks : List Chunk) : List Msg :=
  (roleSystem, systemInstruction) :: hist ++ [(humanRole, humanContent q chunks)]

/- ------------------------------------------------------------------
   format_sources and the conversational chain.
   ------------------------------------------------------------------ -/

/-- One line of format_sources for one source document. -/
def sourceLine (md : Bool) (c : Chunk) : Str :=
  (if md then "- **Source:** ".toList else "- Source: ".toList) ++
    baseName c.source ++
    (match c.page with
     | none => []
     | some p => " (Page: ".toList ++ (Nat.repr (p + 1)).toList ++ ")".toList)

/-- format_sources from src/chatbot.py. -/
def format_sources (docs : List Chunk) (md : Bool) : Str :=
  if docs = [] then []
  else '\n' :: joinSep "\n".toList (docs.map (sourceLine md))

/-- Modelled from the spec: one invocation of the conversational chain
(RunnableWithMessageHistory around retrieval and generation, library
code).  The history for the session is read first (created empty on first
access); the question is embedded; the nearest chunks are retrieved; the
generator is called on the assembled prompt.  On any provider error the
error is returned and no turn is appended; on success the user turn and
the assistant turn are appended to the session history. -/
def chainInvoke (embed : Str → Except Err (List Int))
    (generate : List Msg → Except Err Str)
    (vs : VectorStore) (hs : Histories) (sid q : Str) :
    Except Err (Str × List Chunk) × Histories :=
  let hs1 := (get_session_history hs sid).1
  let hist := (get_session_history hs sid).2
  match embed q with
  | .error e => (.error e, hs1)
  | .ok qv =>
    let ctx := search vs qv topK
    match generate (buildPrompt hist q ctx) with
    | .error e => (.error e, hs1)
    | .ok ans =>
      (.ok (ans, ctx), appendTurns hs1 sid [(humanRole, q), (aiRole, ans)])

def pleaseEnterMsg : Str := "Please enter a question.".toList

/-- Chatbot.ask from src/chatbot.py: empty questions short-circuit with a
fixed reply; otherwise the chain is invoked and the answer is returned
with the formatted source list. -/
def ask (embed : Str → Except Err (List Int))
    (generate : List Msg → Except Err Str)
    (vs : VectorStore) (hs : Histories) (q sid : Str) (md : Bool) :
    Except Err (Str × Str) × Histories :=
  if q = [] then (.ok (pleaseEnterMsg, []), hs)
  else
    match chainInvoke embed generate vs hs sid q with
    | (.error e, hs') => (.error e, hs')
    | (.ok (ans, ctx), hs') => (.ok (ans, format_sources ctx md), hs')

/- ------------------------------------------------------------------
   Index loading and Chatbot construction.
   ------------------------------------------------------------------ -/

/-- The error raised by _load_vector_store for a missing index path. -/
inductive ChatbotError where
  | notFound (msg : Str)
deriving DecidableEq

/-- The message of the missing-index error, built around the resolved
index path exactly as in _load_vector_store. -/
def notFoundMsg (resolvedPath : Str) : Str :=
  "Index path not found: ".toList ++ resolvedPath ++
    "\nPlease run \x27python document_processor.py\x27 first to create the index.".toList

/-- Chatbot._load_vector_store: the filesystem check, the path resolver
and the FAISS loader are oracle parameters. -/
def load_vector_store (pathExists : Str → Bool) (loadLocal : Str → VectorStore)
    (resolve : Str → Str) (index_path : Str) : Except ChatbotError VectorStore :=
  if pathExists index_path then .ok (loadLocal index_path)
  else .error (.notFound (notFoundMsg (resolve index_path)))

/-- The state a constructed Chatbot holds. -/
structure Chatbot where
  index_path : Str
  vector_store : VectorStore
  chat_histories : Histories
deriving DecidableEq

/-- Chatbot.__init__: load the vector store, then start with an empty
session dictionary; a load failure aborts construction. -/
def chatbotInit (pathExists : Str → Bool) (loadLocal : Str → VectorStore)
    (resolve : Str → Str) (index_path : Str) : Except ChatbotError Chatbot :=
  match load_vector_store pathExists loadLocal resolve index_path with
  | .error e => .error e
  | .ok vs => .ok { index_path := index_path, vector_store := vs, chat_histories := [] }

/- ------------------------------------------------------------------
   Document loading (src/document_processor.py).
   ------------------------------------------------------------------ -/

def supportedExts : List Str := [".txt".toList, ".md".toList, ".pdf".toList]

/-- find_files: a direct file path is returned as-is; a directory is
walked and filtered to supported extensions.  The filesystem is supplied
as the isFile test and the recursive glob. -/
def find_files (isFile : Str → Bool) (rglob : Str → List Str) (path : Str) :
    List Str :=
  if isFile path then [path]
  else (rglob path).filter
    (fun p => isFile p && decide (lowerStr (suffixOf p) ∈ supportedExts))

/-- The loader dispatch inside the load_documents loop: text loader for
.txt and .md, pdf loader for .pdf, nothing for any other extension. -/
def loaderFor (textLoad pdfLoad : Str → Except Err (List Document)) (p : Str) :
    Option (Except Err (List Document)) :=
  if lowerStr (suffixOf p) = ".txt".toList ∨ lowerStr (suffixOf p) = ".md".toList then
    some (textLoad p)
  else if lowerStr (suffixOf p) = ".pdf".toList then some (pdfLoad p)
  else none

/-- The warning printed when loading one file fails. -/
def warnMsg (p : Str) (e : Err) : Str :=
  "[WARN] Failed to load ".toList ++ p ++ ": ".toList ++ e

/-- load_documents: load every path in order, collecting the loaded
documents; a failing load contributes a warning instead of documents and
the loop continues.  Returns the documents and the warning log. -/
def load_documents (textLoad pdfLoad : Str → Except Err (List Document)) :
    List Str → List Document × List Str
  | [] => ([], [])
  | p :: rest =>
    let r := load_documents textLoad pdfLoad rest
    match loaderFor textLoad pdfLoad p with
    | none => r
    | some (.ok ds) => (ds ++ r.1, r.2)
    | some (.error e) => (r.1, warnMsg p e :: r.2)

/- ------------------------------------------------------------------
   Ticket services (src/ticket_services.py).
   ------------------------------------------------------------------ -/

def categories : List Str :=
  ["maintainance".toList, "product support".toList, "refund".toList,
    "high_priority_product".toList]

def classifySystemPrompt : Str :=
  "Categorize the content into one of: ".toList ++ joinSep ", ".toList categories ++
    ". Respond with only the category name.".toList

def unclassified : Str := "Unclassified".toList

/-- classify_ticket_content: returns Unclassified when the provider client
is unavailable or the completion call fails, otherwise the stripped model
output. -/
def classify_ticket_content (client : Option Unit)
    (complete : List Msg → Except Err Str) (content : Str) : Str :=
  match client with
  | none => unclassified
  | some _ =>
    match complete [(roleSystem, classifySystemPrompt), (roleUser, content)] with
    | .ok out => trimStr out
    | .error _ => unclassified

def sentimentSystemPrompt : Str :=
  "Analyze the user\x27s final sentiment from the conversation. Respond with only: \x27positive\x27, \x27negative\x27, or \x27neutral\x27.".toList

def positiveStr : Str := "positive".toList

def negativeStr : Str := "negative".toList

def neutralStr : Str := "neutral".toList

/-- analyze_conversation_sentiment: neutral when the client is missing,
the call fails, or the lowered stripped output is not one of the three
sentiment labels; otherwise that label. -/
def analyze_conversation_sentiment (client : Option Unit)
    (complete : List Msg → Except Err Str) (conversation : Str) : Str :=
  match client with
  | none => neutralStr
  | some _ =>
    match complete [(roleSystem, sentimentSystemPrompt), (roleUser, conversation)] with
    | .ok out =>
      if lowerStr (trimStr out) ∈ [positiveStr, negativeStr, neutralStr] then
        lowerStr (trimStr out)
      else neutralStr
    | .error _ => neutralStr

/- ------------------------------------------------------------------
   Concrete fixtures used to evaluate the definitions on small inputs.
   ------------------------------------------------------------------ -/

def exDoc1 : Document :=
  { source := "a.txt".toList, page := none, content := "hello".toList }

def exChunk : Chunk :=
  { source := "doc.txt".toList, page := none, content := "hello world".toList }

def exVS : VectorStore := { entries := [([1], exChunk)] }

def exQ : Str := "hi".toList

def exSid : Str := "s1".toList

def exAns : Str := "ans".toList

def exTurn : Msg := (humanRole, "hey".toList)

def exEmbed : Str → Except Err (List Int) := fun _ => .ok [1]

def exEmbedFail : Str → Except Err (List Int) := fun _ => .error "boom".toList

def exGen : List Msg → Except Err Str := fun _ => .ok exAns

def exHist1 : Histories := [(exSid, [(humanRole, exQ), (aiRole, exAns)])]

def exHist2 : Histories :=
  [(exSid, [(humanRole, exQ), (aiRole, exAns), (humanRole, exQ), (aiRole, exAns)])]

def exTextLoad : Str → Except Err (List Document) :=
  fun p => if p = "bad.txt".toList then .error "boom".toList else .ok [exDoc1]

def exPdfLoad : Str → Except Err (List Document) := fun _ => .ok []

/- ------------------------------------------------------------------
   Lemmas about the chunker.
   ------------------------------------------------------------------ -/

theorem slidingChunksFuel_zero (cs co : Nat) (s : Str) :
    slidingChunksFuel 0 cs co s = [s] := rfl

theorem slidingChunksFuel_succ (f cs co : Nat) (s : Str) :
    slidingChunksFuel (f + 1) cs co s =
      if s.length ≤ cs ∨ cs ≤ co then [s]
      else s.take cs :: slidingChunksFuel f cs co (s.drop (cs - co)) := rfl

theorem consecOverlap_nil (ov : Nat) : consecOverlap ov [] := trivial

theorem consecOverlap_single (ov : Nat) (a : Str) : consecOverlap ov [a] := trivial

theorem slidingChunksFuel_nil (f cs co : Nat) :
    slidingChunksFuel f cs co [] = [[]] := by
  cases f with
  | zero => rfl
  | succ n =>
    rw [slidingChunksFuel_succ]
    exact if_pos (Or.inl (by simp))

theorem slidingChunks_nil (cs co : Nat) : slidingChunks cs co [] = [[]] := rfl

theorem slidingChunksFuel_congr (cs co : Nat) :
    ∀ (f₁ f₂ : Nat) (s : Str), s.length ≤ f₁ → s.length ≤ f₂ →
      slidingChunksFuel f₁ cs co s = slidingChunksFuel f₂ cs co s := by
  intro f₁
  induction f₁ with
  | zero =>
    intro f₂ s h1 h2
    have hs : s = [] := List.length_eq_zero.mp (Nat.le_zero.mp h1)
    subst hs
    rw [slidingChunksFuel_nil, slidingChunksFuel_nil]
  | succ n ih =>
    intro f₂ s h1 h2
    by_cases hb : s.length ≤ cs ∨ cs ≤ co
    · cases f₂ with
      | zero =>
        have hs : s = [] := List.length_eq_zero.mp (Nat.le_zero.mp h2)
        subst hs
        rw [slidingChunksFuel_nil, slidingChunksFuel_nil]
      | succ m =>
        rw [slidingChunksFuel_succ, slidingChunksFuel_succ, if_pos hb, if_pos hb]
    · rw [not_or] at hb
      obtain ⟨hb1, hb2⟩ := hb
      cases f₂ with
      | zero => omega
      | succ m =>
        rw [slidingChunksFuel_succ, slidingChunksFuel_succ,
          if_neg (not_or.mpr ⟨hb1, hb2⟩), if_neg (not_or.mpr ⟨hb1, hb2⟩)]
        congr 1
        refine ih m (s.drop (cs - co)) ?_ ?_ <;>
          · rw [List.length_drop]; omega

theorem slidingChunks_eq (cs co : Nat) (h : co < cs) (s : Str) :
    slidingChunks cs co s =
      if s.length ≤ cs then [s]
      else s.take cs :: slidingChunks cs co (s.drop (cs - co)) := by
  by_cases hb : s.length ≤ cs
  · rw [if_pos hb]
    show slidingChunksFuel s.length cs co s = [s]
    cases hsl : s.length with
    | zero => rfl
    | succ n => rw [slidingChunksFuel_succ, if_pos (Or.inl hb)]
  · rw [if_neg hb]
    obtain ⟨n, hsl⟩ : ∃ n, s.length = n + 1 := ⟨s.length - 1, by omega⟩
    show slidingChunksFuel s.length cs co s = _
    rw [hsl, slidingChunksFuel_succ, if_neg (not_or.mpr ⟨hb, by omega⟩)]
    congr 1
    exact slidingChunksFuel_congr cs co n (s.drop (cs - co)).length
      (s.drop (cs - co)) (by rw [List.length_drop]; omega) le_rfl

theorem claimedChunkCount_le_one (cs co L : Nat) (h : co < cs) (hL : L ≤ cs) :
    claimedChunkCount cs co L ≤ 1 := by
  unfold claimedChunkCount
  have h2 := (Nat.div_lt_iff_lt_mul (show 0 < cs - co by omega)).mpr
    (show L - co + (cs - co) - 1 < 2 * (cs - co) by omega)
  omega

theorem expectedChunkCount_eq_one (cs co L : Nat) (h : co < cs) (hL : L ≤ cs) :
    expectedChunkCount cs co L = 1 := by
  unfold expectedChunkCount
  rw [Nat.max_eq_left (claimedChunkCount_le_one cs co L h hL)]

theorem slidingChunks_count_aux (cs co : Nat) (h : co < cs) :
    ∀ (n : Nat) (s : Str), s.length ≤ n →
      (slidingChunks cs co s).length = expectedChunkCount cs co s.length := by
  intro n
  induction n with
  | zero =>
    intro s hs
    have hs0 : s = [] := List.length_eq_zero.mp (Nat.le_zero.mp hs)
    subst hs0
    rw [slidingChunks_nil, expectedChunkCount_eq_one cs co _ h (by simp)]
    rfl
  | succ n ih =>
    intro s hs
    rw [slidingChunks_eq cs co h]
    by_cases hb : s.length ≤ cs
    · rw [if_pos hb, expectedChunkCount_eq_one cs co _ h hb]
      rfl
    · rw [if_neg hb]
      have hdl : (s.drop (cs - co)).length = s.length - (cs - co) :=
        List.length_drop _ _
      have hrec := ih (s.drop (cs - co)) (by omega)
      rw [List.length_cons, hrec, hdl]
      have hstep : 0 < cs - co := by omega
      have hq1 : 1 ≤ claimedChunkCount cs co (s.length - (cs - co)) := by
        unfold claimedChunkCount
        rw [Nat.le_div_iff_mul_le hstep]
        omega
      have hq2 : 2 ≤ claimedChunkCount cs co s.length := by
        unfold claimedChunkCount
        rw [Nat.le_div_iff_mul_le hstep]
        omega
      have key : claimedChunkCount cs co s.length =
          claimedChunkCount cs co (s.length - (cs - co)) + 1 := by
        unfold claimedChunkCount
        have harg : s.length - co + (cs - co) - 1 =
            (s.length - (cs - co) - co + (cs - co) - 1) + (cs - co) := by omega
        rw [harg, Nat.add_div_right _ hstep]
      unfold expectedChunkCount
      rw [Nat.max_eq_right (by omega), Nat.max_eq_right (by omega), key]

theorem slidingChunks_count (cs co : Nat) (h : co < cs) (s : Str) :
    (slidingChunks cs co s).length = expectedChunkCount cs co s.length :=
  slidingChunks_count_aux cs co h s.length s le_rfl

theorem slidingChunks_chunk_le_aux (cs co : Nat) (h : co < cs) :
    ∀ (n : Nat) (s : Str), s.length ≤ n →
      ∀ c ∈ slidingChunks cs co s, c.length ≤ cs := by
  intro n
  induction n with
  | zero =>
    intro s hs c hc
    have hs0 : s = [] := List.length_eq_zero.mp (Nat.le_zero.mp hs)
    subst hs0
    rw [slidingChunks_nil] at hc
    simp only [List.mem_singleton] at hc
    subst hc
    exact Nat.zero_le cs
  | succ n ih =>
    intro s hs c hc
    rw [slidingChunks_eq cs co h] at hc
    by_cases hb : s.length ≤ cs
    · rw [if_pos hb] at hc
      simp only [List.mem_singleton] at hc
      subst hc
      exact hb
    · rw [if_neg hb] at hc
      rcases List.mem_cons.mp hc with hc | hc
      · subst hc
        rw [List.length_take]
        omega
      · exact ih (s.drop (cs - co)) (by rw [List.length_drop]; omega) c hc

theorem slidingChunks_chunk_le (cs co : Nat) (h : co < cs) (s : Str) :
    ∀ c ∈ slidingChunks cs co s, c.length ≤ cs :=
  slidingChunks_chunk_le_aux cs co h s.length s le_rfl

theorem slidingChunks_head (cs co : Nat) (h : co < cs) (s : Str) :
    ∃ r, slidingChunks cs co s = s.take cs :: r := by
  rw [slidingChunks_eq cs co h]
  by_cases hb : s.length ≤ cs
  · rw [if_pos hb]
    exact ⟨[], by rw [List.take_of_length_le hb]⟩
  · rw [if_neg hb]
    exact ⟨_, rfl⟩

theorem slidingChunks_overlap_aux (cs co : Nat) (h : co < cs) :
    ∀ (n : Nat) (s : Str), s.length ≤ n →
      consecOverlap co (slidingChunks cs co s) := by
  intro n
  induction n with
  | zero =>
    intro s hs
    have hs0 : s = [] := List.length_eq_zero.mp (Nat.le_zero.mp hs)
    subst hs0
    rw [slidingChunks_nil]
    exact consecOverlap_single co []
  | succ n ih =>
    intro s hs
    rw [slidingChunks_eq cs co h]
    by_cases hb : s.length ≤ cs
    · rw [if_pos hb]
      exact consecOverlap_single co s
    · rw [if_neg hb]
      obtain ⟨r, hr⟩ := slidingChunks_head cs co h (s.drop (cs - co))
      rw [hr]
      have hta : (s.take cs).length = cs := by
        rw [List.length_take]; omega
      refine ⟨?_, ?_, ?_, ?_⟩
      · rw [hta]; omega
      · rw [List.length_take, List.length_drop]; omega
      · rw [hta, List.drop_take, List.take_take]
        have h1 : cs - (cs - co) = co := by omega
        have h2 : min co cs = co := by omega
        rw [h1, h2]
      · rw [← hr]
        exact ih (s.drop (cs - co)) (by rw [List.length_drop]; omega)

theorem slidingChunks_overlap (cs co : Nat) (h : co < cs) (s : Str) :
    consecOverlap co (slidingChunks cs co s) :=
  slidingChunks_overlap_aux cs co h s.length s le_rfl

/- ------------------------------------------------------------------
   Helper lemmas about the session store.
   ------------------------------------------------------------------ -/

theorem lookupHist_append_self (hs : Histories) (sid : Str) (v : List Msg)
    (h : lookupHist hs sid = none) :
    lookupHist (hs ++ [(sid, v)]) sid = some v := by
  induction hs with
  | nil => simp [lookupHist]
  | cons e rest ih =>
    obtain ⟨k, w⟩ := e
    by_cases hk : k = sid
    · rw [lookupHist, if_pos hk] at h
      exact absurd h (by simp)
    · rw [lookupHist, if_neg hk] at h
      rw [List.cons_append, lookupHist, if_neg hk]
      exact ih h

theorem lookupHist_append_other (hs : Histories) (sid sid' : Str) (v : List Msg)
    (h : sid' ≠ sid) :
    lookupHist (hs ++ [(sid, v)]) sid' = lookupHist hs sid' := by
  induction hs with
  | nil =>
    simp only [List.nil_append, lookupHist]
    rw [if_neg (fun hh : sid = sid' => h hh.symm)]
  | cons e rest ih =>
    obtain ⟨k, w⟩ := e
    by_cases hk : k = sid'
    · rw [List.cons_append, lookupHist, if_pos hk, lookupHist, if_pos hk]
    · rw [List.cons_append, lookupHist, if_neg hk, lookupHist, if_neg hk]
      exact ih

theorem lookupHist_appendTurns_same (hs : Histories) (sid : Str)
    (ts : List Msg) (v : List Msg) (h : lookupHist hs sid = some v) :
    lookupHist (appendTurns hs sid ts) sid = some (v ++ ts) := by
  induction hs with
  | nil => simp [lookupHist] at h
  | cons e rest ih =>
    obtain ⟨k, w⟩ := e
    by_cases hk : k = sid
    · rw [lookupHist, if_pos hk] at h
      rw [appendTurns, if_pos hk, lookupHist, if_pos hk]
      rw [Option.some_inj] at h
      rw [h]
    · rw [lookupHist, if_neg hk] at h
      rw [appendTurns, if_neg hk, lookupHist, if_neg hk]
      exact ih h

theorem lookupHist_appendTurns_other (hs : Histories) (sid sid' : Str)
    (ts : List Msg) (h : sid' ≠ sid) :
    lookupHist (appendTurns hs sid ts) sid' = lookupHist hs sid' := by
  induction hs with
  | nil => rfl
  | cons e rest ih =>
    obtain ⟨k, w⟩ := e
    by_cases hk : k = sid
    · have hk' : ¬ k = sid' := by rw [hk]; exact fun hh => h hh.symm
      rw [appendTurns, if_pos hk, lookupHist, if_neg hk', lookupHist, if_neg hk']
      exact ih
    · rw [appendTurns, if_neg hk]
      by_cases hk' : k = sid'
      · rw [lookupHist, if_pos hk', lookupHist, if_pos hk']
      · rw [lookupHist, if_neg hk', lookupHist, if_neg hk']
        exact ih

/-- The store returned by get_session_history holds the returned history
under the accessed session id. -/
theorem gsh_lookup (hs : Histories) (sid : Str) :
    lookupHist (get_session_history hs sid).1 sid =
      some (get_session_history hs sid).2 := by
  cases h : lookupHist hs sid with
  | some ts => simp [get_session_history, h]
  | none => simp [get_session_history, h, lookupHist_append_self hs sid [] h]

/-- get_session_history on a known session id returns the store unchanged
with the stored history. -/
theorem gsh_of_lookup_some (hs : Histories) (sid : Str) (ts : List Msg)
    (h : lookupHist hs sid = some ts) :
    get_session_history hs sid = (hs, ts) := by
  unfold get_session_history
  rw [h]

/-- get_session_history on an unknown session id appends an empty history
slot and returns the empty history. -/
theorem gsh_of_lookup_none (hs : Histories) (sid : Str)
    (h : lookupHist hs sid = none) :
    get_session_history hs sid = (hs ++ [(sid, [])], []) := by
  unfold get_session_history
  rw [h]

/-- Reading the history through get_session_history agrees with getTurns. -/
theorem gsh_turns (hs : Histories) (sid : Str) :
    (get_session_history hs sid).2 = getTurns hs sid := by
  cases h : lookupHist hs sid with
  | some ts => simp [get_session_history, getTurns, h]
  | none => simp [get_session_history, getTurns, h]

/-- Accessing a session history changes no session turn list. -/
theorem getTurns_gsh_fst (hs : Histories) (sid sid' : Str) :
    getTurns (get_session_history hs sid).1 sid' = getTurns hs sid' := by
  cases h : lookupHist hs sid with
  | some ts => simp [get_session_history, h]
  | none =>
    by_cases hss : sid' = sid
    · subst hss
      simp [get_session_history, h, getTurns, lookupHist_append_self hs sid' [] h]
    · simp [get_session_history, h, getTurns, lookupHist_append_other hs sid sid' [] hss]

/-- For a different session id, accessing a history does not even change
the lookup result. -/
theorem lookupHist_gsh_fst_other (hs : Histories) (sid sid' : Str)
    (h : sid' ≠ sid) :
    lookupHist (get_session_history hs sid).1 sid' = lookupHist hs sid' := by
  cases hh : lookupHist hs sid with
  | some ts => simp [get_session_history, hh]
  | none => simp [get_session_history, hh, lookupHist_append_other hs sid sid' [] h]

/- ------------------------------------------------------------------
   Lemmas about one chain invocation.
   ------------------------------------------------------------------ -/

theorem chainInvoke_embed_error (embed : Str → Except Err (List Int))
    (generate : List Msg → Except Err Str) (vs : VectorStore) (hs : Histories)
    (sid q : Str) (e : Err) (he : embed q = .error e) :
    chainInvoke embed generate vs hs sid q =
      (.error e, (get_session_history hs sid).1) := by
  simp [chainInvoke, he]

theorem chainInvoke_gen_error (embed : Str → Except Err (List Int))
    (generate : List Msg → Except Err Str) (vs : VectorStore) (hs : Histories)
    (sid q : Str) (qv : List Int) (e : Err) (he : embed q = .ok qv)
    (hg : generate (buildPrompt (get_session_history hs sid).2 q (search vs qv topK))
      = .error e) :
    chainInvoke embed generate vs hs sid q =
      (.error e, (get_session_history hs sid).1) := by
  simp [chainInvoke, he, hg]

theorem chainInvoke_ok (embed : Str → Except Err (List Int))
    (generate : List Msg → Except Err Str) (vs : VectorStore) (hs : Histories)
    (sid q : Str) (qv : List Int) (ans : Str) (he : embed q = .ok qv)
    (hg : generate (buildPrompt (get_session_history hs sid).2 q (search vs qv topK))
      = .ok ans) :
    chainInvoke embed generate vs hs sid q =
      (.ok (ans, search vs qv topK),
        appendTurns (get_session_history hs sid).1 sid
          [(humanRole, q), (aiRole, ans)]) := by
  simp [chainInvoke, he, hg]

theorem ask_embed_error (embed : Str → Except Err (List Int))
    (generate : List Msg → Except Err Str) (vs : VectorStore) (hs : Histories)
    (q sid : Str) (md : Bool) (e : Err) (hq : q ≠ []) (he : embed q = .error e) :
    ask embed generate vs hs q sid md =
      (.error e, (get_session_history hs sid).1) := by
  unfold ask
  rw [if_neg hq, chainInvoke_embed_error embed generate vs hs sid q e he]

theorem ask_gen_error (embed : Str → Except Err (List Int))
    (generate : List Msg → Except Err Str) (vs : VectorStore) (hs : Histories)
    (q sid : Str) (md : Bool) (qv : List Int) (e : Err) (hq : q ≠ [])
    (he : embed q = .ok qv)
    (hg : generate (buildPrompt (get_session_history hs sid).2 q (search vs qv topK))
      = .error e) :
    ask embed generate vs hs q sid md =
      (.error e, (get_session_history hs sid).1) := by
  unfold ask
  rw [if_neg hq, chainInvoke_gen_error embed generate vs hs sid q qv e he hg]

theorem ask_ok (embed : Str → Except Err (List Int))
    (generate : List Msg → Except Err Str) (vs : VectorStore) (hs : Histories)
    (q sid : Str) (md : Bool) (qv : List Int) (ans : Str) (hq : q ≠ [])
    (he : embed q = .ok qv)
    (hg : generate (buildPrompt (get_session_history hs sid).2 q (search vs qv topK))
      = .ok ans) :
    ask embed generate vs hs q sid md =
      (.ok (ans, format_sources (search vs qv topK) md),
        appendTurns (get_session_history hs sid).1 sid
          [(humanRole, q), (aiRole, ans)]) := by
  unfold ask
  rw [if_neg hq, chainInvoke_ok embed generate vs hs sid q qv ans he hg]

/- ------------------------------------------------------------------
   Claim C1: chunking contract.
   ------------------------------------------------------------------ -/

/-- C1, counterexample: the claimed count ceil((L - O) / (C - O)) is wrong
for short documents.  A one-character document is split into one chunk,
while the claimed formula gives zero. -/
theorem chunking_claim_counterexample :
    (split_documents
        [{ source := "a.txt".toList, page := none, content := "a".toList }]).length
      ≠ claimedChunkCount config.CHUNK_SIZE config.CHUNK_OVERLAP
          ("a".toList).length := by
  decide

/-- C1 (amended): with chunk size 800 and overlap 120, a nonempty document
of length L is split into max 1 (ceil((L - 120) / 680)) chunks; every
chunk is at most 800 characters; consecutive chunks overlap in exactly
120 characters; source and page metadata are preserved; and a document of
length at most 800 yields exactly one chunk. -/
theorem chunking_contract (d : Document) (hL : 1 ≤ d.content.length) :
    (split_documents [d]).length
        = expectedChunkCount config.CHUNK_SIZE config.CHUNK_OVERLAP d.content.length
    ∧ (∀ c ∈ split_documents [d], c.content.length ≤ config.CHUNK_SIZE)
    ∧ consecOverlap config.CHUNK_OVERLAP ((split_documents [d]).map Chunk.content)
    ∧ (∀ c ∈ split_documents [d], c.source = d.source ∧ c.page = d.page)
    ∧ (d.content.length ≤ config.CHUNK_SIZE → (split_documents [d]).length = 1) := by
  have _hpos := hL
  have hlt : config.CHUNK_OVERLAP < config.CHUNK_SIZE := by decide
  have hsd : split_documents [d]
      = (slidingChunks config.CHUNK_SIZE config.CHUNK_OVERLAP d.content).map
          (fun c => { source := d.source, page := d.page, content := c }) := by
    simp [split_documents, splitDocument]
  refine ⟨?_, ?_, ?_, ?_, ?_⟩
  · rw [hsd, List.length_map]
    exact slidingChunks_count _ _ hlt d.content
  · intro c hc
    rw [hsd] at hc
    obtain ⟨x, hx, rfl⟩ := List.mem_map.mp hc
    exact slidingChunks_chunk_le _ _ hlt d.content x hx
  · have hmm : (split_documents [d]).map Chunk.content
        = slidingChunks config.CHUNK_SIZE config.CHUNK_OVERLAP d.content := by
      rw [hsd, List.map_map]
      have hid : (Chunk.content ∘ fun c : Str =>
          ({ source := d.source, page := d.page, content := c } : Chunk)) = id := rfl
      rw [hid, List.map_id]
    rw [hmm]
    exact slidingChunks_overlap _ _ hlt d.content
  · intro c hc
    rw [hsd] at hc
    obtain ⟨x, hx, rfl⟩ := List.mem_map.mp hc
    exact ⟨rfl, rfl⟩
  · intro hle
    rw [hsd, List.length_map, slidingChunks_count _ _ hlt,
      expectedChunkCount_eq_one _ _ _ hlt hle]

/-- C1, witness: the amended contract evaluated on a five-character
document. -/
theorem chunking_contract_witness :
    1 ≤ exDoc1.content.length ∧
    ((split_documents [exDoc1]).length
        = expectedChunkCount config.CHUNK_SIZE config.CHUNK_OVERLAP
            exDoc1.content.length
    ∧ (∀ c ∈ split_documents [exDoc1], c.content.length ≤ config.CHUNK_SIZE)
    ∧ consecOverlap config.CHUNK_OVERLAP ((split_documents [exDoc1]).map Chunk.content)
    ∧ (∀ c ∈ split_documents [exDoc1], c.source = exDoc1.source ∧ c.page = exDoc1.page)
    ∧ (exDoc1.content.length ≤ config.CHUNK_SIZE →
        (split_documents [exDoc1]).length = 1)) :=
  ⟨by decide, chunking_contract exDoc1 (by decide)⟩

/- ------------------------------------------------------------------
   Claim C9: empty question short-circuit.
   ------------------------------------------------------------------ -/

/-- C9: for the empty question, ask returns the fixed reply with an empty
source string and the unchanged session store, for every embedder,
generator and vector store, so neither the chain nor the model is
consulted and no session history changes. -/
theorem ask_empty_question (embed : Str → Except Err (List Int))
    (generate : List Msg → Except Err Str) (vs : VectorStore) (hs : Histories)
    (sid : Str) (md : Bool) :
    ask embed generate vs hs [] sid md = (.ok (pleaseEnterMsg, []), hs) := by
  unfold ask
  rw [if_pos rfl]

/- ------------------------------------------------------------------
   Claim C10: sentiment analysis is total and in range.
   ------------------------------------------------------------------ -/

/-- C10: analyze_conversation_sentiment always returns one of positive,
negative, neutral; a missing client yields neutral; a failing provider
call yields neutral; and a successful output is kept only when its
stripped lowering is one of the three labels, else neutral. -/
theorem sentiment_always_in_range :
    (∀ (client : Option Unit) (complete : List Msg → Except Err Str) (conv : Str),
      analyze_conversation_sentiment client complete conv
        ∈ [positiveStr, negativeStr, neutralStr]) ∧
    (∀ (complete : List Msg → Except Err Str) (conv : Str),
      analyze_conversation_sentiment none complete conv = neutralStr) ∧
    (∀ (e : Err) (conv : Str),
      analyze_conversation_sentiment (some ()) (fun _ => .error e) conv = neutralStr) ∧
    (∀ (out : Str) (conv : Str),
      analyze_conversation_sentiment (some ()) (fun _ => .ok out) conv
        = if lowerStr (trimStr out) ∈ [positiveStr, negativeStr, neutralStr]
          then lowerStr (trimStr out) else neutralStr) := by
  refine ⟨?_, fun complete conv => rfl, fun e conv => rfl, fun out conv => rfl⟩
  intro client complete conv
  cases client with
  | none =>
    show neutralStr ∈ [positiveStr, negativeStr, neutralStr]
    decide
  | some u =>
    cases u
    cases hc : complete [(roleSystem, sentimentSystemPrompt), (roleUser, conv)] with
    | error e =>
      simp only [analyze_conversation_sentiment, hc]
      decide
    | ok out =>
      simp only [analyze_conversation_sentiment, hc]
      by_cases hmem : lowerStr (trimStr out) ∈ [positiveStr, negativeStr, neutralStr]
      · rw [if_pos hmem]
        exact hmem
      · rw [if_neg hmem]
        decide

/- ------------------------------------------------------------------
   Claim C2: no partial history mutation on failure.
   ------------------------------------------------------------------ -/

/-- C2: if the embedding or the generation step of ask fails, the error is
returned to the caller unchanged and no session turn list changes (a new
session only has its empty history slot created); the user turn and the
assistant turn are appended exactly when the answer was produced. -/
theorem ask_atomic_history (embed : Str → Except Err (List Int))
    (generate : List Msg → Except Err Str) (vs : VectorStore) (hs : Histories)
    (q sid : Str) (md : Bool) (hq : q ≠ []) :
    (∀ e, embed q = .error e →
      (ask embed generate vs hs q sid md).1 = .error e ∧
        ∀ sid', getTurns (ask embed generate vs hs q sid md).2 sid'
          = getTurns hs sid') ∧
    (∀ qv e, embed q = .ok qv →
      generate (buildPrompt (get_session_history hs sid).2 q (search vs qv topK))
        = .error e →
      (ask embed generate vs hs q sid md).1 = .error e ∧
        ∀ sid', getTurns (ask embed generate vs hs q sid md).2 sid'
          = getTurns hs sid') ∧
    (∀ qv ans, embed q = .ok qv →
      generate (buildPrompt (get_session_history hs sid).2 q (search vs qv topK))
        = .ok ans →
      getTurns (ask embed generate vs hs q sid md).2 sid
        = getTurns hs sid ++ [(humanRole, q), (aiRole, ans)]) := by
  refine ⟨?_, ?_, ?_⟩
  · intro e he
    rw [ask_embed_error embed generate vs hs q sid md e hq he]
    exact ⟨rfl, fun sid' => getTurns_gsh_fst hs sid sid'⟩
  · intro qv e he hg
    rw [ask_gen_error embed generate vs hs q sid md qv e hq he hg]
    exact ⟨rfl, fun sid' => getTurns_gsh_fst hs sid sid'⟩
  · intro qv ans he hg
    rw [ask_ok embed generate vs hs q sid md qv ans hq he hg]
    show getTurns (appendTurns (get_session_history hs sid).1 sid
      [(humanRole, q), (aiRole, ans)]) sid = _
    unfold getTurns
    rw [lookupHist_appendTurns_same _ sid _ _ (gsh_lookup hs sid), gsh_turns hs sid]
    cases hl : lookupHist hs sid with
    | some ts => simp [getTurns, hl]
    | none => simp [getTurns, hl]

/-- C2, witness: a failing embedder propagates its error out of ask and
leaves the empty session store with no turns. -/
theorem ask_atomic_history_witness :
    (ask exEmbedFail exGen exVS [] exQ exSid false).1 = .error "boom".toList ∧
    getTurns (ask exEmbedFail exGen exVS [] exQ exSid false).2 exSid
      = getTurns [] exSid := by
  have h :=
    (ask_atomic_history exEmbedFail exGen exVS [] exQ exSid false
      (by decide)).1 "boom".toList rfl
  exact ⟨h.1, h.2 exSid⟩

/- ------------------------------------------------------------------
   Claim C3: missing index on load.
   ------------------------------------------------------------------ -/

/-- C3: when the index path does not exist, loading the vector store and
constructing the Chatbot both fail with a notFound error whose message
contains the resolved index path, and the loader is never consulted (the
outcome does not depend on it), so no vector store is loaded. -/
theorem missing_index_not_found (pathExists : Str → Bool)
    (loadLocal : Str → VectorStore) (resolve : Str → Str) (p : Str)
    (h : pathExists p = false) :
    load_vector_store pathExists loadLocal resolve p
        = .error (.notFound (notFoundMsg (resolve p))) ∧
    chatbotInit pathExists loadLocal resolve p
        = .error (.notFound (notFoundMsg (resolve p))) ∧
    resolve p <:+: notFoundMsg (resolve p) ∧
    ∀ loadLocal', chatbotInit pathExists loadLocal' resolve p
        = chatbotInit pathExists loadLocal resolve p := by
  have h1 : ∀ ll : Str → VectorStore, load_vector_store pathExists ll resolve p
      = .error (.notFound (notFoundMsg (resolve p))) := by
    intro ll
    unfold load_vector_store
    rw [if_neg (by simp [h])]
  have h2 : ∀ ll : Str → VectorStore, chatbotInit pathExists ll resolve p
      = .error (.notFound (notFoundMsg (resolve p))) := by
    intro ll
    unfold chatbotInit
    rw [h1 ll]
  exact ⟨h1 loadLocal, h2 loadLocal,
    ⟨"Index path not found: ".toList, _, rfl⟩,
    fun ll' => (h2 ll').trans (h2 loadLocal).symm⟩

/-- C3, witness: a filesystem on which no path exists makes construction
at the configured index path fail with the notFound message naming the
path. -/
theorem missing_index_not_found_witness :
    (fun _ : Str => false) config.INDEX_PATH = false ∧
    chatbotInit (fun _ => false) (fun _ => { entries := [] }) (fun s => s)
        config.INDEX_PATH
      = .error (.notFound (notFoundMsg config.INDEX_PATH)) ∧
    config.INDEX_PATH <:+: notFoundMsg config.INDEX_PATH := by
  have h := missing_index_not_found (fun _ => false) (fun _ => { entries := [] })
    (fun s => s) config.INDEX_PATH rfl
  exact ⟨rfl, h.2.1, h.2.2.1⟩

/- ------------------------------------------------------------------
   Claim C4: session isolation.
   ------------------------------------------------------------------ -/

/-- C4: asking under one session id changes nothing another session id can
observe (neither the stored entry, nor the turn list, nor the formatted
history); the store creates an empty history on first access of a new
session id and thereafter returns the stored history unchanged. -/
theorem session_isolation (embed : Str → Except Err (List Int))
    (generate : List Msg → Except Err Str) (vs : VectorStore) (hs : Histories)
    (q sid sid' : Str) (md : Bool) (hne : sid' ≠ sid) :
    lookupHist (ask embed generate vs hs q sid md).2 sid' = lookupHist hs sid' ∧
    getTurns (ask embed generate vs hs q sid md).2 sid' = getTurns hs sid' ∧
    get_history_as_string (ask embed generate vs hs q sid md).2 sid'
      = get_history_as_string hs sid' ∧
    (lookupHist hs sid = none →
      get_session_history hs sid = (hs ++ [(sid, [])], [])) ∧
    (∀ ts, lookupHist hs sid = some ts → get_session_history hs sid = (hs, ts)) ∧
    get_session_history (get_session_history hs sid).1 sid
      = ((get_session_history hs sid).1, (get_session_history hs sid).2) := by
  have hmain : lookupHist (ask embed generate vs hs q sid md).2 sid'
      = lookupHist hs sid' := by
    by_cases hq : q = []
    · rw [hq, ask_empty_question]
    · cases he : embed q with
      | error e =>
        rw [ask_embed_error embed generate vs hs q sid md e hq he]
        exact lookupHist_gsh_fst_other hs sid sid' hne
      | ok qv =>
        cases hg : generate
            (buildPrompt (get_session_history hs sid).2 q (search vs qv topK)) with
        | error e =>
          rw [ask_gen_error embed generate vs hs q sid md qv e hq he hg]
          exact lookupHist_gsh_fst_other hs sid sid' hne
        | ok ans =>
          rw [ask_ok embed generate vs hs q sid md qv ans hq he hg]
          show lookupHist (appendTurns (get_session_history hs sid).1 sid
            [(humanRole, q), (aiRole, ans)]) sid' = _
          rw [lookupHist_appendTurns_other _ sid sid' _ hne]
          exact lookupHist_gsh_fst_other hs sid sid' hne
  refine ⟨hmain, ?_, ?_, ?_, ?_, ?_⟩
  · unfold getTurns
    rw [hmain]
  · unfold get_history_as_string
    rw [hmain]
  · intro hnone
    exact gsh_of_lookup_none hs sid hnone
  · intro ts hts
    exact gsh_of_lookup_some hs sid ts hts
  · exact gsh_of_lookup_some _ sid _ (gsh_lookup hs sid)

/-- C4, witness: a turn appended under session s1 is invisible to session
s2, and the store operations on a fresh and a known session id. -/
theorem session_isolation_witness :
    "s2".toList ≠ exSid ∧
    (lookupHist (ask exEmbed exGen exVS [] exQ exSid false).2 "s2".toList
        = lookupHist [] "s2".toList ∧
      getTurns (ask exEmbed exGen exVS [] exQ exSid false).2 "s2".toList
        = getTurns [] "s2".toList ∧
      (lookupHist [] exSid = none →
        get_session_history [] exSid = ([] ++ [(exSid, [])], []))) := by
  have h := session_isolation exEmbed exGen exVS [] exQ exSid "s2".toList false
    (by decide)
  exact ⟨by decide, h.1, h.2.1, h.2.2.2.1⟩

/- ------------------------------------------------------------------
   Claim C5: retrieval determinism.
   ------------------------------------------------------------------ -/

/-- C5: two successful invocations of the conversational chain with the
same question against the same embedder and vector store retrieve the same
chunk list in the same order, even though the session history advanced
between the runs; the retrieval step is a pure function that returns the
index unchanged. -/
theorem retrieval_determinism (embed : Str → Except Err (List Int))
    (generate : List Msg → Except Err Str) (vs : VectorStore) (hs : Histories)
    (sid q : Str) (qv : List Int) (a1 a2 : Str) (c1 c2 : List Chunk)
    (hs1 hs2 : Histories) (he : embed q = .ok qv)
    (h1 : chainInvoke embed generate vs hs sid q = (.ok (a1, c1), hs1))
    (h2 : chainInvoke embed generate vs hs1 sid q = (.ok (a2, c2), hs2)) :
    c1 = c2 ∧ c1 = search vs qv topK ∧
    (∀ (em : Str → List Int) (vs' : VectorStore) (q' : Str) (k : Nat),
      retrieveStep em vs' q' k = (search vs' (em q') k, vs')) := by
  have e1 : c1 = search vs qv topK := by
    cases hg : generate
        (buildPrompt (get_session_history hs sid).2 q (search vs qv topK)) with
    | error e =>
      rw [chainInvoke_gen_error embed generate vs hs sid q qv e he hg] at h1
      exact absurd (congrArg Prod.fst h1) (by simp)
    | ok ans =>
      rw [chainInvoke_ok embed generate vs hs sid q qv ans he hg] at h1
      have hp := Except.ok.inj (congrArg Prod.fst h1)
      exact (congrArg Prod.snd hp).symm
  have e2 : c2 = search vs qv topK := by
    cases hg : generate
        (buildPrompt (get_session_history hs1 sid).2 q (search vs qv topK)) with
    | error e =>
      rw [chainInvoke_gen_error embed generate vs hs1 sid q qv e he hg] at h2
      exact absurd (congrArg Prod.fst h2) (by simp)
    | ok ans =>
      rw [chainInvoke_ok embed generate vs hs1 sid q qv ans he hg] at h2
      have hp := Except.ok.inj (congrArg Prod.fst h2)
      exact (congrArg Prod.snd hp).symm
  exact ⟨e1.trans e2.symm, e1, fun em vs' q' k => rfl⟩

/-- C5, witness: two concrete runs of the chain on the same one-entry
index retrieve the same single chunk. -/
theorem retrieval_determinism_witness :
    exEmbed exQ = .ok [1] ∧
    chainInvoke exEmbed exGen exVS [] exSid exQ
      = (.ok (exAns, [exChunk]), exHist1) ∧
    chainInvoke exEmbed exGen exVS exHist1 exSid exQ
      = (.ok (exAns, [exChunk]), exHist2) ∧
    ([exChunk] : List Chunk) = [exChunk] :=
  ⟨rfl, rfl, rfl,
    (retrieval_determinism exEmbed exGen exVS [] exSid exQ [1] exAns exAns
      [exChunk] [exChunk] exHist1 exHist2 rfl rfl rfl).1⟩

/- ------------------------------------------------------------------
   Claim C6: prompt assembly and answer return.
   ------------------------------------------------------------------ -/

/-- An element of a joined list occurs inside the join. -/
theorem joinSep_infix_of_mem (sep : Str) :
    ∀ (l : List Str) (x : Str), x ∈ l → ∃ s t, s ++ x ++ t = joinSep sep l := by
  intro l
  induction l with
  | nil =>
    intro x hx
    exact absurd hx (List.not_mem_nil x)
  | cons a rest ih =>
    intro x hx
    cases rest with
    | nil =>
      rw [List.mem_singleton] at hx
      subst hx
      exact ⟨[], [], by simp [joinSep]⟩
    | cons b m =>
      rcases List.mem_cons.mp hx with hxa | hxr
      · subst hxa
        exact ⟨[], sep ++ joinSep sep (b :: m), by simp [joinSep, List.append_assoc]⟩
      · obtain ⟨s, t, hst⟩ := ih x hxr
        refine ⟨a ++ sep ++ s, t, ?_⟩
        rw [show joinSep sep (a :: b :: m) = a ++ sep ++ joinSep sep (b :: m) from rfl,
          ← hst]
        simp [List.append_assoc]

/-- C6: the assembled prompt contains the system message with the
answer-only-from-context instruction, every turn of the supplied session
history, and a human message whose content contains the question and every
retrieved chunk text; and when the generator succeeds on the prompt built
from the session history and the retrieved chunks, ask returns exactly the
generator response together with the formatted sources. -/
theorem prompt_assembly (hist : List Msg) (q : Str) (chunks : List Chunk)
    (t : Msg) (c : Chunk) (ht : t ∈ hist) (hc : c ∈ chunks)
    (embed : Str → Except Err (List Int)) (generate : List Msg → Except Err Str)
    (vs : VectorStore) (hs : Histories) (sid : Str) (ans : Str) (md : Bool)
    (qv : List Int) (hq : q ≠ []) (he : embed q = .ok qv)
    (hg : generate (buildPrompt (get_session_history hs sid).2 q (search vs qv topK))
      = .ok ans) :
    (roleSystem, systemInstruction) ∈ buildPrompt hist q chunks ∧
    answerOnlyInstr <:+: systemInstruction ∧
    t ∈ buildPrompt hist q chunks ∧
    (humanRole, humanContent q chunks) ∈ buildPrompt hist q chunks ∧
    c.content <:+: humanContent q chunks ∧
    (ask embed generate vs hs q sid md).1
      = .ok (ans, format_sources (search vs qv topK) md) := by
  refine ⟨List.mem_cons_self _ _, ⟨sysPre, sysPost, rfl⟩, ?_, ?_, ?_, ?_⟩
  · exact List.mem_cons_of_mem _ (List.mem_append_left _ ht)
  · exact List.mem_cons_of_mem _
      (List.mem_append_right _ (List.mem_singleton.mpr rfl))
  · obtain ⟨s, u, hsu⟩ := joinSep_infix_of_mem "\n\n".toList
      (chunks.map Chunk.content) c.content (List.mem_map_of_mem Chunk.content hc)
    refine ⟨"Question:\n".toList ++ q ++ "\n\nContext:\n".toList ++ s, u, ?_⟩
    show _ = humanContent q chunks
    unfold humanContent joinDocs
    rw [← hsu]
    simp [List.append_assoc]
  · rw [ask_ok embed generate vs hs q sid md qv ans hq he hg]

/-- C6, witness: the prompt over a one-turn history and a single retrieved
chunk, and the answer returned by ask on concrete oracles. -/
theorem prompt_assembly_witness :
    (roleSystem, systemInstruction) ∈ buildPrompt [exTurn] exQ [exChunk] ∧
    answerOnlyInstr <:+: systemInstruction ∧
    exTurn ∈ buildPrompt [exTurn] exQ [exChunk] ∧
    (humanRole, humanContent exQ [exChunk]) ∈ buildPrompt [exTurn] exQ [exChunk] ∧
    exChunk.content <:+: humanContent exQ [exChunk] ∧
    (ask exEmbed exGen exVS [] exQ exSid false).1
      = .ok (exAns, format_sources (search exVS [1] topK) false) :=
  prompt_assembly [exTurn] exQ [exChunk] exTurn exChunk
    (List.mem_singleton.mpr rfl) (List.mem_singleton.mpr rfl)
    exEmbed exGen exVS [] exSid exAns false [1] (by decide) rfl rfl

/- ------------------------------------------------------------------
   Claim C7: provider failure handling.
   ------------------------------------------------------------------ -/

/-- C7, counterexample: a failing completion call inside
classify_ticket_content is not propagated; the function swallows the
provider error and substitutes the default label Unclassified (and
analyze_conversation_sentiment likewise substitutes neutral). -/
theorem provider_default_counterexample :
    classify_ticket_content (some ())
        (fun _ => .error "provider down".toList) "x".toList = unclassified ∧
    analyze_conversation_sentiment (some ())
        (fun _ => .error "provider down".toList) "x".toList = neutralStr :=
  ⟨rfl, rfl⟩

/-- C7 (amended): in Chatbot.ask a provider failure (embedding or
generation) is returned to the caller unchanged, with no retry and no
substituted answer; the ticket helpers however catch provider failures:
classify_ticket_content returns Unclassified and
analyze_conversation_sentiment returns neutral. -/
theorem provider_error_propagation (embed : Str → Except Err (List Int))
    (generate : List Msg → Except Err Str) (vs : VectorStore) (hs : Histories)
    (q sid : Str) (md : Bool) (hq : q ≠ []) :
    (∀ e, embed q = .error e →
      (ask embed generate vs hs q sid md).1 = .error e) ∧
    (∀ qv e, embed q = .ok qv →
      generate (buildPrompt (get_session_history hs sid).2 q (search vs qv topK))
        = .error e →
      (ask embed generate vs hs q sid md).1 = .error e) ∧
    (∀ (e : Err) (content : Str),
      classify_ticket_content (some ()) (fun _ => .error e) content
        = unclassified) ∧
    (∀ (e : Err) (conv : Str),
      analyze_conversation_sentiment (some ()) (fun _ => .error e) conv
        = neutralStr) := by
  refine ⟨?_, ?_, fun e content => rfl, fun e conv => rfl⟩
  · intro e he
    rw [ask_embed_error embed generate vs hs q sid md e hq he]
  · intro qv e he hg
    rw [ask_gen_error embed generate vs hs q sid md qv e hq he hg]

/-- C7, witness: ask with a failing embedder returns exactly the provider
error. -/
theorem provider_error_propagation_witness :
    (ask exEmbedFail exGen exVS [] exQ exSid false).1 = .error "boom".toList :=
  (provider_error_propagation exEmbedFail exGen exVS [] exQ exSid false
    (by decide)).1 "boom".toList rfl

/- ------------------------------------------------------------------
   Claim C8: per-file failure isolation during loading.
   ------------------------------------------------------------------ -/

/-- C8, counterexample: an unsupported document file is skipped without
being logged.  find_files passes a direct file path through regardless of
its extension, and load_documents drops it producing neither documents
nor a warning, against the claim that every unsupported file is logged. -/
theorem unsupported_file_not_logged_counterexample :
    find_files (fun _ => true) (fun _ => []) "manual.docx".toList
      = ["manual.docx".toList] ∧
    load_documents (fun _ => .ok []) (fun _ => .ok []) ["manual.docx".toList]
      = ([], []) :=
  ⟨rfl, rfl⟩

/-- C8 (amended): a file whose load fails contributes no documents and one
warning naming it, and does not abort the run: the remaining files still
contribute all their documents and warnings; a file with an unsupported
extension is skipped silently, contributing neither documents nor a
warning. -/
theorem load_documents_skip_failure
    (textLoad pdfLoad : Str → Except Err (List Document))
    (xs ys : List Str) (p : Str) (e : Err)
    (h : loaderFor textLoad pdfLoad p = some (.error e)) :
    (load_documents textLoad pdfLoad (xs ++ p :: ys)).1
        = (load_documents textLoad pdfLoad xs).1
          ++ (load_documents textLoad pdfLoad ys).1 ∧
    (load_documents textLoad pdfLoad (xs ++ p :: ys)).2
        = (load_documents textLoad pdfLoad xs).2
          ++ warnMsg p e :: (load_documents textLoad pdfLoad ys).2 ∧
    p <:+: warnMsg p e ∧
    (∀ (p' : Str), loaderFor textLoad pdfLoad p' = none →
      load_documents textLoad pdfLoad [p'] = ([], [])) := by
  have hmain : ∀ zs : List Str, load_documents textLoad pdfLoad (zs ++ p :: ys)
      = ((load_documents textLoad pdfLoad zs).1
          ++ (load_documents textLoad pdfLoad ys).1,
        (load_documents textLoad pdfLoad zs).2
          ++ warnMsg p e :: (load_documents textLoad pdfLoad ys).2) := by
    intro zs
    induction zs with
    | nil => simp [load_documents, h]
    | cons x zs ih =>
      show load_documents textLoad pdfLoad (x :: (zs ++ p :: ys)) = _
      cases hx : loaderFor textLoad pdfLoad x with
      | none => simp [load_documents, hx, ih]
      | some r =>
        cases r with
        | ok ds => simp [load_documents, hx, ih, List.append_assoc]
        | error e' => simp [load_documents, hx, ih]
  refine ⟨?_, ?_, ?_, ?_⟩
  · rw [hmain xs]
  · rw [hmain xs]
  · exact ⟨"[WARN] Failed to load ".toList, ": ".toList ++ e,
      by simp [warnMsg, List.append_assoc]⟩
  · intro p' hp'
    simp [load_documents, hp']

/-- C8, witness: a text loader failing on bad.txt leaves the documents of
good.md intact and logs one warning naming bad.txt. -/
theorem load_documents_skip_failure_witness :
    loaderFor exTextLoad exPdfLoad "bad.txt".toList
      = some (.error "boom".toList) ∧
    ((load_documents exTextLoad exPdfLoad
          (["good.md".toList] ++ "bad.txt".toList :: [])).1
        = (load_documents exTextLoad exPdfLoad ["good.md".toList]).1
          ++ (load_documents exTextLoad exPdfLoad []).1 ∧
      (load_documents exTextLoad exPdfLoad
          (["good.md".toList] ++ "bad.txt".toList :: [])).2
        = (load_documents exTextLoad exPdfLoad ["good.md".toList]).2
          ++ warnMsg "bad.txt".toList "boom".toList
            :: (load_documents exTextLoad exPdfLoad []).2 ∧
      "bad.txt".toList <:+: warnMsg "bad.txt".toList "boom".toList) := by
  have h := load_documents_skip_failure exTextLoad exPdfLoad
    ["good.md".toList] [] "bad.txt".toList "boom".toList rfl
  exact ⟨rfl, h.1, h.2.1, h.2.2.1⟩
